import Mathlib

/-!
# Verification of the BookingScraper scraping pipeline

Shallow embedding of the parts of the `app/` package that the specification's
claims are about, together with theorems settling those claims.

Conventions of the embedding:
* Python strings are modelled as `String` / `List Char`; `str.lower()`,
  `str.strip()` and the regex character classes `\d`, `[a-z]` are modelled at
  the ASCII level (all concrete inputs used in theorems are ASCII).
* Python dicts built by the extractor are modelled as association lists of
  `String × PyVal`, preserving the exact keys and insertion order of the
  source.
* I/O (HTTP fetches, Selenium, the database, the filesystem) is modelled by
  oracle parameters: a per-locale `FetchOutcome` feeds the worker loop, the
  database tables are explicit lists of rows, created directories are an
  explicit list of paths.
* The three `re.sub` calls of `_normalize_img_url` and the end-anchored
  locale-suffix strip of `build_language_url` are modelled by executable
  scanners proved-equivalent in shape to the regexes (leftmost scan,
  maximal digit runs, end anchoring).
-/

/-- Python values as far as the worker inspects them: `None`, strings,
lists of strings, integers, and payloads the worker never looks into. -/
inductive PyVal where
  | none
  | str (s : String)
  | strList (l : List String)
  | nat (n : Nat)
  | other (tag : Nat)
deriving DecidableEq, Repr

/-- Python truthiness for the modelled values (`if detected:` etc.). -/
def pyTruthy : PyVal → Bool
  | PyVal.none => false
  | PyVal.str s => s ≠ ""
  | PyVal.strList l => l ≠ []
  | PyVal.nat n => n ≠ 0
  | PyVal.other _ => true

/-- `data.get(k)` on a dict modelled as an association list: the first
binding wins, a missing key yields `None`. -/
def pyGet (d : List (String × PyVal)) (k : String) : PyVal :=
  (d.lookup k).getD PyVal.none

/-- ASCII model of Python `str.lower()`. -/
def pyLower (l : List Char) : List Char := l.map Char.toLower

/-- ASCII model of Python `str.strip()`: drop whitespace from both ends. -/
def stripChars (l : List Char) : List Char :=
  ((l.dropWhile Char.isWhitespace).reverse.dropWhile Char.isWhitespace).reverse

/-- The character list of the literal `".html"`. -/
def dotHtml : List Char := ['.', 'h', 't', 'm', 'l']

/-- Python's substring test `pat in s` on character lists. -/
def containsSeq (pat : List Char) : List Char → Bool
  | [] => pat.isEmpty
  | c :: cs => pat.isPrefixOf (c :: cs) || containsSeq pat cs

/-- Matches a literal character sequence at the head of the input and
returns the remainder (regex literal text). -/
def expectChars : List Char → List Char → Option (List Char)
  | [], s => some s
  | _ :: _, [] => Option.none
  | p :: ps, c :: cs => if c = p then expectChars ps cs else Option.none

/-!
## `BookingExtractor._normalize_img_url` (app/extractor.py)

```python
url = re.sub(r'/max\d+x\d+x?\d*/', '/max1280x900/', url)
url = re.sub(r'/max\d+/',          '/max1280x900/', url)
url = re.sub(r'/square\d+/',       '/max1280x900/', url)
```
No `re.IGNORECASE` flag: these three substitutions are case-sensitive.
Each matcher below decides whether its pattern matches at the head of the
list and returns the remainder after the match (the trailing `/` of the
match is consumed, as `re.sub` continues scanning after the match).
Backtracking never helps these patterns (a maximal digit run is always
followed by a non-digit), so maximal-run matching is exact.
-/

/-- Matcher for `/max\d+x\d+x?\d*/` at the head of the input. -/
def matchMaxPair (s : List Char) : Option (List Char) :=
  match expectChars ['/', 'm', 'a', 'x'] s with
  | Option.none => Option.none
  | some rest =>
    let d1 := rest.takeWhile Char.isDigit
    let r1 := rest.dropWhile Char.isDigit
    if d1 = [] then Option.none
    else if r1.head? = some 'x' then
      let r2 := r1.tail
      let d2 := r2.takeWhile Char.isDigit
      let r3 := r2.dropWhile Char.isDigit
      if d2 = [] then Option.none
      else if r3.head? = some '/' then some r3.tail
      else if r3.head? = some 'x' then
        let r6 := r3.tail.dropWhile Char.isDigit
        if r6.head? = some '/' then some r6.tail else Option.none
      else Option.none
    else Option.none

/-- Matcher for `/max\d+/` at the head of the input. -/
def matchMaxSingle (s : List Char) : Option (List Char) :=
  match expectChars ['/', 'm', 'a', 'x'] s with
  | Option.none => Option.none
  | some rest =>
    let d := rest.takeWhile Char.isDigit
    let r := rest.dropWhile Char.isDigit
    if d = [] then Option.none
    else if r.head? = some '/' then some r.tail else Option.none

/-- Matcher for `/square\d+/` at the head of the input. -/
def matchSquare (s : List Char) : Option (List Char) :=
  match expectChars ['/', 's', 'q', 'u', 'a', 'r', 'e'] s with
  | Option.none => Option.none
  | some rest =>
    let d := rest.takeWhile Char.isDigit
    let r := rest.dropWhile Char.isDigit
    if d = [] then Option.none
    else if r.head? = some '/' then some r.tail else Option.none

/-- Leftmost, non-overlapping `re.sub` scan: at each position try the
matcher; on a match emit the replacement and continue after the match,
otherwise emit the character and advance one position.  `fuel` bounds the
recursion; every matcher consumes at least one character, so
`fuel = length` is always enough. -/
def reSubGo (m : List Char → Option (List Char)) (repl : List Char) :
    Nat → List Char → List Char
  | _, [] => []
  | 0, s => s
  | Nat.succ fuel, c :: cs =>
    match m (c :: cs) with
    | some r => repl ++ reSubGo m repl fuel r
    | Option.none => c :: reSubGo m repl fuel cs

/-- `re.sub(pattern, repl, s)` for the anchored-free patterns above. -/
def reSub (m : List Char → Option (List Char)) (repl : List Char)
    (s : List Char) : List Char :=
  reSubGo m repl s.length s

/-- The replacement `/max1280x900/`. -/
def maxRepl : List Char :=
  ['/', 'm', 'a', 'x', '1', '2', '8', '0', 'x', '9', '0', '0', '/']

/-- `BookingExtractor._normalize_img_url` (app/extractor.py:238-251). -/
def normalize_img_url (url : String) : String :=
  let u1 := reSub matchMaxPair maxRepl url.data
  let u2 := reSub matchMaxSingle maxRepl u1
  let u3 := reSub matchSquare maxRepl u2
  ⟨u3⟩

/-- `_is_hotel_photo` inside `BookingExtractor.extract_images`
(app/extractor.py:1234-1239): a plain, case-sensitive `startswith` /
substring test. -/
def is_hotel_photo (url : String) : Bool :=
  if url = "" then false
  else if ¬ ("http".data.isPrefixOf url.data) then false
  else containsSeq "bstatic.com/xdata/images/hotel/".data url.data

/-!
## `build_language_url` (app/scraper.py:874-903) and `LANGUAGE_EXT`
(app/config.py)
-/

/-- `settings.LANGUAGE_EXT` from app/config.py. -/
def LANGUAGE_EXT : List (String × String) :=
  [("en", ""), ("es", ".es"), ("fr", ".fr"), ("de", ".de"), ("it", ".it"),
   ("pt", ".pt"), ("nl", ".nl"), ("ru", ".ru"), ("ar", ".ar"), ("tr", ".tr"),
   ("hu", ".hu"), ("pl", ".pl"), ("zh", ".zh"), ("no", ".no"), ("fi", ".fi"),
   ("sv", ".sv"), ("da", ".da"), ("ja", ".ja"), ("ko", ".ko")]

/-- Case-insensitive comparison against a lowercase reference character
(model of `re.IGNORECASE` on a literal). -/
def lcEq (c d : Char) : Bool := c.toLower = d

/-- `[a-z]` under `re.IGNORECASE` (ASCII letters of either case). -/
def isReAlpha (c : Char) : Bool := c.isAlpha

/-- End-anchored matcher for `\.[a-z]{2}(?:-[a-z]{2,4})?\.html$` with
`re.IGNORECASE`.  Works on the reversed list; at most one end-anchored
match is possible (the candidate lengths 8 and 11-13 impose conflicting
character constraints), so `re.sub` either removes exactly this suffix or
leaves the string unchanged.  Returns the characters before the matched
suffix, in original order. -/
def matchLangHtmlEndRev : List Char → Option (List Char)
  | l1 :: m1 :: t1 :: h1 :: d1 :: rest =>
    if lcEq l1 'l' && lcEq m1 'm' && lcEq t1 't' && lcEq h1 'h' && d1 = '.' then
      let letters := rest.takeWhile isReAlpha
      let r2 := rest.dropWhile isReAlpha
      if letters.length = 2 && r2.head? = some '.' then
        some r2.tail.reverse
      else if (2 ≤ letters.length && letters.length ≤ 4)
              && r2.head? = some '-' then
        match r2.tail with
        | a :: b :: rest2 =>
          if isReAlpha a && isReAlpha b && rest2.head? = some '.' then
            some rest2.tail.reverse
          else Option.none
        | _ => Option.none
      else Option.none
    else Option.none
  | _ => Option.none

/-- The end-anchored matcher applied to the string: scan the reversed
list. -/
def matchLangHtmlEnd (l : List Char) : Option (List Char) :=
  matchLangHtmlEndRev l.reverse

/-- `re.sub(r'\.[a-z]{2}(?:-[a-z]{2,4})?\.html$', '.html', s, re.IGNORECASE)`:
the replacement is the literal lowercase `".html"`. -/
def strip_lang_suffix (l : List Char) : List Char :=
  match matchLangHtmlEnd l with
  | some p => p ++ dotHtml
  | Option.none => l

/-- Python's case-sensitive `clean_url.endswith('.html')`. -/
def endsWithHtml (l : List Char) : Bool :=
  ['l', 'm', 't', 'h', '.'].isPrefixOf l.reverse

/-- `if not clean_url.endswith('.html'): clean_url += '.html'`. -/
def ensure_html (l : List Char) : List Char :=
  if endsWithHtml l then l else l ++ dotHtml

/-- The `clean_url` of `build_language_url`: strip any existing locale
suffix from the `.strip()`ed URL, then ensure a `.html` ending. -/
def clean_url_chars (base : List Char) : List Char :=
  ensure_html (strip_lang_suffix (stripChars base))

/-- `build_language_url` on character lists (app/scraper.py:874-903):
compute `clean_url`, then insert the requested locale's suffix before
`.html` (`clean_url[:-5] + ext + '.html'`; the default locale's suffix is
empty). -/
def build_language_url_chars (base : List Char) (language : String) : List Char :=
  let clean := clean_url_chars base
  let ext := (LANGUAGE_EXT.lookup language).getD ("." ++ language)
  if ext = "" then clean
  else clean.take (clean.length - 5) ++ ext.data ++ dotHtml

/-- `build_language_url` (app/scraper.py:874-903). -/
def build_language_url (base_url language : String) : String :=
  ⟨build_language_url_chars base_url.data language⟩

/-!
## `BookingExtractor._validate_lang` (app/extractor.py:156-189) and the
signal table `_LANG_SIGNALS` (app/extractor.py:100-154)
-/

/-- `BookingExtractor._LANG_SIGNALS`: per-locale positive and negative
substring signals, copied verbatim from the source. -/
def LANG_SIGNALS : List (String × (List String × List String)) :=
  [ ("en",
     (["the ", " and ", " with ", "hotel", "beach", "pool",
       "breakfast", "free ", "offers", "features", "located",
       "includes", "available", "property", "resort", "swimming",
       "outdoor", "rooms", "guests", "access", "views"],
      ["está ", "dispone", "habitaci", "alojamiento", "ofrece ",
       "también", "piscina", "desayuno", "normas", "entrada ",
       "salida ", "disponibilidad", "aceptamos", "cancelaci",
       "auch ", "verfüg", "unterkunft", "l\x27hôtel", "dispose",
       "camera ", "spiaggia"])),
    ("es",
     (["está ", "dispone", "habitaci", "alojamiento", "ofrece ",
       "también", "piscina", "desayuno", "normas", "disponibilidad",
       "cancelaci", "entrada ", "salida ", "recepci", "servicios"],
      ["the hotel", "swimming pool", "free wifi", "checkout",
       "breakfast included", "outdoor pool", "das hotel",
       "l\x27hôtel", "dispose de"])),
    ("de",
     (["das ", " und ", "mit ", "bietet", "verfüg", "zimmer",
       "strand", "kostenlos", "frühstück", "unterkunft", "auch ",
       "befindet", "ausstattung", "bewertung", "angebot"],
      ["está ", "dispone", "habitaci", "desayuno",
       "the hotel", "swimming pool", "l\x27hôtel", "dispose"])),
    ("fr",
     (["l\x27hôtel", "les ", "avec ", "dispose", "offre ", "plage",
       "petit-déjeuner", "gratuit", "chambres", "piscine",
       "l\x27établissement", "situé", "propose"],
      ["está ", "dispone", "habitaci", "desayuno",
       "the hotel", "swimming pool", "das hotel"])),
    ("it",
     (["l\x27hotel", "della ", "con ", "dispone", "offre ", "spiaggia",
       "colazione", "piscina", "gratuito", "camere", "struttura",
       "situato", "propone"],
      ["está ", "habitaci", "desayuno", "the hotel", "swimming pool"])),
    ("pt",
     (["o hotel", "com ", "possui", "praia", "café da manhã",
       "piscina", "quartos", "localizado", "gratuito"],
      ["está ", "habitaci"])),
    ("nl",
     (["het hotel", "met ", "beschikt", "strand", "ontbijt",
       "zwembad", "gratis", "kamers", "gelegen"],
      ["está ", "habitaci"])),
    ("ru",
     (["отель", "пляж", "бассейн", "завтрак", "номер", "расположен"],
      ([] : List String))) ]

/-- Resolution `lang = (language or self.language or "en").lower()`. -/
def resolve_lang (language : Option String) (self_language : String) : String :=
  let lang0 : String :=
    match language with
    | some s => if s = "" then (if self_language = "" then "en" else self_language) else s
    | Option.none => if self_language = "" then "en" else self_language
  ⟨pyLower lang0.data⟩

/-- `score_pos`: number of positive signals of the resolved locale that
occur as substrings of the lowercased text. -/
def lang_pos_score (lang : String) (text : String) : Nat :=
  (((LANG_SIGNALS.lookup lang).getD ([], [])).1.filter
    (fun s => containsSeq s.data (pyLower text.data))).length

/-- `score_neg`: number of negative signals of the resolved locale that
occur as substrings of the lowercased text. -/
def lang_neg_score (lang : String) (text : String) : Nat :=
  (((LANG_SIGNALS.lookup lang).getD ([], [])).2.filter
    (fun s => containsSeq s.data (pyLower text.data))).length

/-- `BookingExtractor._validate_lang` (app/extractor.py:156-189).
`self_language` is `self.language`; `language` the optional argument. -/
def validate_lang (self_language : String) (text : String)
    (language : Option String) : Bool :=
  let lang := resolve_lang language self_language
  if text = "" then true
  else if (stripChars text.data).length < 30 then true
  else
    let score_pos := lang_pos_score lang text
    let score_neg := lang_neg_score lang text
    if 3 ≤ score_neg ∧ score_pos < score_neg then false else true

/-!
## `NordVPNManagerWindows.verify_vpn_active` (app/vpn_manager_windows.py:435-463)

`original_ip` is captured once at construction (`None` when the probe
raised); `get_current_ip()` returns the literal string `"Unknown"` when
every probe service failed.  The probed current IP is passed as a
parameter here; the method's caching and the `self.current_ip` write are
not observable in the returned Boolean.
-/

/-- `verify_vpn_active`: `if not self.original_ip or self.original_ip ==
"Unknown": return True`; then `current == "Unknown" → True`; else
`current != self.original_ip`. -/
def verify_vpn_active (original_ip : Option String) (current : String) : Bool :=
  match original_ip with
  | Option.none => true
  | some o =>
    if o = "" ∨ o = "Unknown" then true
    else if current = "Unknown" then true
    else current ≠ o

/-!
## `ImageDownloader.download_images` (app/image_downloader.py:73-150)

The filesystem is modelled as the list of directories created so far; a
`fetch` oracle stands for the per-URL download-decode-resize-save step
(`_download_single`), returning `none` for a skipped/failed URL.  The
completion order of the thread pool does not affect the returned count.
-/

/-- The target directory `hotel_{id}/{language}[/room_{rid}]` under the
images root. -/
def mk_hotel_dir (hotel_id : Nat) (language : String) (room_id : Option Nat) :
    String :=
  let hotelDir := "hotel_" ++ toString hotel_id ++ "/" ++ language
  match room_id with
  | some rid => hotelDir ++ "/room_" ++ toString rid
  | Option.none => hotelDir

/-- `ImageDownloader.download_images`: returns the per-image results and
the updated directory list.  An empty URL list returns before the language
guard and before `target_dir.mkdir`. -/
def download_images (dirs : List String) (hotel_id : Nat)
    (image_urls : List String) (language : String) (room_id : Option Nat)
    (fetch : String → Option Nat) : List Nat × List String :=
  if image_urls = [] then ([], dirs)
  else
    let language := if language ≠ "en" then "en" else language
    let target := mk_hotel_dir hotel_id language room_id
    let dirs := dirs ++ [target]
    (image_urls.filterMap fetch, dirs)

/-!
## `_save_hotel` (app/scraper_service.py:660-716)

The `hotels` table (app/models.py) modelled as a list of rows; extracted
payloads are opaque `PyVal`s, timestamps are abstract `Nat` ticks (`NOW()`
is the `now` parameter).
-/

/-- A row of the `hotels` table (app/models.py:61-111). -/
structure HotelRow where
  url_id : Nat
  language : String
  url : String
  name : PyVal
  address : PyVal
  description : PyVal
  rating : PyVal
  total_reviews : PyVal
  rating_category : PyVal
  review_scores : PyVal
  services : PyVal
  facilities : PyVal
  house_rules : PyVal
  important_info : PyVal
  rooms_info : PyVal
  images_urls : PyVal
  images_local : PyVal
  images_count : Nat
  scraped_at : Nat
  updated_at : Nat
deriving DecidableEq, Repr

/-- The parameter dict passed to the INSERT of `_save_hotel`. -/
structure SaveParams where
  url_id : Nat
  url : String
  language : String
  name : PyVal
  address : PyVal
  description : PyVal
  rating : PyVal
  total_reviews : PyVal
  rating_category : PyVal
  review_scores : PyVal
  services : PyVal
  facilities : PyVal
  house_rules : PyVal
  important_info : PyVal
  rooms_info : PyVal
  images_urls : PyVal
deriving DecidableEq, Repr

/-- The INSERT branch: all parameter columns plus `scraped_at = NOW()`,
`updated_at = NOW()`; `images_count` and `images_local` take their column
defaults. -/
def insert_row (p : SaveParams) (now : Nat) : HotelRow :=
  { url_id := p.url_id, language := p.language, url := p.url,
    name := p.name, address := p.address, description := p.description,
    rating := p.rating, total_reviews := p.total_reviews,
    rating_category := p.rating_category, review_scores := p.review_scores,
    services := p.services, facilities := p.facilities,
    house_rules := p.house_rules, important_info := p.important_info,
    rooms_info := p.rooms_info, images_urls := p.images_urls,
    images_local := PyVal.none, images_count := 0,
    scraped_at := now, updated_at := now }

/-- The `ON CONFLICT (url_id, language) DO UPDATE SET` branch: exactly the
columns listed in the source are overwritten (`name` through
`images_urls`, plus `updated_at = NOW()`); `url`, `scraped_at`,
`images_count` and `images_local` are not in the SET list. -/
def conflict_update (r : HotelRow) (p : SaveParams) (now : Nat) : HotelRow :=
  { r with
    name := p.name, address := p.address, description := p.description,
    rating := p.rating, total_reviews := p.total_reviews,
    rating_category := p.rating_category, review_scores := p.review_scores,
    services := p.services, facilities := p.facilities,
    house_rules := p.house_rules, important_info := p.important_info,
    rooms_info := p.rooms_info, images_urls := p.images_urls,
    updated_at := now }

/-- Whether a row carries the upsert key `(url_id, language)`. -/
def hotelKeyMatch (r : HotelRow) (p : SaveParams) : Bool :=
  r.url_id = p.url_id ∧ r.language = p.language

/-- `_save_hotel` (app/scraper_service.py:660-716): keyed upsert on the
`hotels` table. -/
def save_hotel (tbl : List HotelRow) (p : SaveParams) (now : Nat) :
    List HotelRow :=
  if tbl.any (fun r => hotelKeyMatch r p) then
    tbl.map (fun r => if hotelKeyMatch r p then conflict_update r p now else r)
  else tbl ++ [insert_row p now]

/-!
## `BookingExtractor.extract_all` (app/extractor.py:335-360) and
`scrape_hotel` (app/scraper.py:228-346)

The per-field extractors are HTML-parsing functions; their results for one
page are collected in an `Extraction` record, and `extract_all` builds the
result dict with exactly the keys and order of the source.  `scrape_hotel`
then adds the four bookkeeping keys.  No key `"detected_lang"` (nor
`"detected_locale"`) is ever inserted anywhere in the source.
-/

/-- The results of the per-field extractors for one parsed page. -/
structure Extraction where
  name : PyVal
  address : PyVal
  description : PyVal
  rating : PyVal
  rating_category : PyVal
  total_reviews : PyVal
  review_scores : PyVal
  services : PyVal
  facilities : PyVal
  house_rules : PyVal
  important_info : PyVal
  rooms : PyVal
  images_urls : List String
deriving DecidableEq, Repr

/-- `extract_all` (app/extractor.py:335-360): the result dict, keys in
source order. -/
def extract_all (e : Extraction) (language : String) : List (String × PyVal) :=
  [("name", e.name),
   ("address", e.address),
   ("description", e.description),
   ("rating", e.rating),
   ("rating_category", e.rating_category),
   ("total_reviews", e.total_reviews),
   ("review_scores", e.review_scores),
   ("services", e.services),
   ("facilities", e.facilities),
   ("house_rules", e.house_rules),
   ("important_info", e.important_info),
   ("rooms", e.rooms),
   ("images_urls", PyVal.strList e.images_urls),
   ("language", PyVal.str language)]

/-- The dict returned by a successful `scrape_hotel` call
(app/scraper.py:321-338): `extract_all` plus `url`, `http_status`,
`html_length`, `page_title`. -/
def scrape_hotel_data (e : Extraction) (language url : String)
    (http_status html_length : Nat) (page_title : String) :
    List (String × PyVal) :=
  extract_all e language ++
    [("url", PyVal.str url),
     ("http_status", PyVal.nat http_status),
     ("html_length", PyVal.nat html_length),
     ("page_title", PyVal.str page_title)]

/-!
## `scrape_one` (app/scraper_service.py:298-653): the per-listing worker

The per-locale loop is embedded as a fold over the ordered locale list
paired with a `FetchOutcome` oracle describing what the fetch (and, on a
session-death exception, the one recovery attempt) produced for that
locale.  The observable state carries the saved records, log entries,
image-download invocations and the counters the loop reads.
-/

/-- The settings `scrape_one` reads. -/
structure ScrapeConfig where
  default_language : String
  enabled_languages : List String
  download_images_enabled : Bool
  use_selenium : Bool
  base_url : String
deriving Repr

/-- Per-locale oracle: `ret d` is a normal return of `scrape_hotel`
(`none` = no data); `exn msg rec` is an exception with message `msg`,
where `rec` describes the single recovery attempt (`none` = the recovery
itself raised; `some d` = the retried `scrape_hotel` returned `d`). -/
inductive FetchOutcome where
  | ret (d : Option Extraction)
  | exn (msg : String) (rec : Option (Option Extraction))
deriving Repr

/-- One `_download_images` invocation: the locale argument it was called
with, the URL list, and whether it came from the session-death recovery
block. -/
structure DownloadEvent where
  language : String
  urls : List String
  recovery : Bool
deriving DecidableEq, Repr

/-- The observable state of one `scrape_one` run. -/
structure RunState where
  scraped_count : Nat
  hotel_name : Option String
  lang_failures : Nat
  lang_retry_count : Nat
  images_downloaded : Bool
  saved : List (String × String)
  logs : List (String × String)
  downloads : List DownloadEvent
deriving DecidableEq, Repr

/-- The state at the top of the locale loop. -/
def initRunState : RunState :=
  { scraped_count := 0, hotel_name := Option.none, lang_failures := 0,
    lang_retry_count := 0, images_downloaded := false,
    saved := [], logs := [], downloads := [] }

/-- `hotel_name = data["name"] if hotel_name is None`. -/
def updName (h : Option String) (v : PyVal) : Option String :=
  match h with
  | some s => some s
  | Option.none => match v with
    | PyVal.str s => some s
    | _ => Option.none

/-- The `languages` list built at app/scraper_service.py:348-362: the
default language moved (or inserted) to the front. -/
def ordered_languages (cfg : ScrapeConfig) : List String :=
  if cfg.default_language ∈ cfg.enabled_languages then
    cfg.default_language ::
      cfg.enabled_languages.filter (fun l => l ≠ cfg.default_language)
  else cfg.default_language :: cfg.enabled_languages

/-- The body of the per-locale loop of `scrape_one`
(app/scraper_service.py:380-572) for one locale. -/
def scrape_step (cfg : ScrapeConfig) (st : RunState) (lang : String)
    (oc : FetchOutcome) : RunState :=
  let lang_url := build_language_url cfg.base_url lang
  match oc with
  | FetchOutcome.ret d =>
    match d with
    | Option.none =>
      { st with logs := st.logs ++ [(lang, "no_data")],
                lang_failures := st.lang_failures + 1 }
    | some e =>
      if ¬ pyTruthy e.name then
        { st with logs := st.logs ++ [(lang, "no_data")],
                  lang_failures := st.lang_failures + 1 }
      else
        let st1 := { st with hotel_name := updName st.hotel_name e.name }
        let data := scrape_hotel_data e lang lang_url 200 0 ""
        let detected := pyGet data "detected_lang"
        if pyTruthy detected ∧ detected ≠ PyVal.str lang then
          -- 'lang_mismatch' branch (app/scraper_service.py:407-452);
          -- `continue` advances the `for` loop to the next locale.
          let st2 := { st1 with logs := st1.logs ++ [(lang, "lang_mismatch")] }
          if lang = cfg.default_language ∧ st2.lang_retry_count < 2 then
            { st2 with lang_retry_count := st2.lang_retry_count + 1 }
          else
            { st2 with lang_failures := st2.lang_failures + 1,
                       lang_retry_count := 0 }
        else
          let st2 := { st1 with lang_retry_count := 0 }
          let st3 := { st2 with
            saved := st2.saved ++ [(lang, lang_url)],
            scraped_count := st2.scraped_count + 1,
            lang_failures := 0,
            logs := st2.logs ++ [(lang, "completed")] }
          if lang = cfg.default_language ∧ ¬ st3.images_downloaded
              ∧ cfg.download_images_enabled then
            let imgs := e.images_urls
            let st4 := if imgs ≠ [] then
                { st3 with downloads := st3.downloads ++
                    [⟨cfg.default_language, imgs, false⟩] }
              else st3
            { st4 with images_downloaded := true }
          else st3
  | FetchOutcome.exn msg rec =>
    let errored : RunState :=
      { st with logs := st.logs ++ [(lang, "error")],
                lang_failures := st.lang_failures + 1 }
    if cfg.use_selenium
        ∧ containsSeq "invalid session id".data (pyLower msg.data) then
      match rec with
      | some (some e2) =>
        if pyTruthy e2.name then
          let st1 := { st with
            hotel_name := updName st.hotel_name e2.name,
            saved := st.saved ++ [(lang, lang_url)],
            scraped_count := st.scraped_count + 1,
            lang_failures := 0,
            logs := st.logs ++ [(lang, "completed")] }
          -- recovery image download (app/scraper_service.py:539-555):
          -- no `lang == DEFAULT` restriction here.
          if ¬ st1.images_downloaded ∧ cfg.download_images_enabled then
            let imgs := e2.images_urls
            let st2 := if imgs ≠ [] then
                { st1 with downloads := st1.downloads ++ [⟨lang, imgs, true⟩] }
              else st1
            { st2 with images_downloaded := true }
          else st1
        else errored
      | some Option.none => errored
      | Option.none => errored
    else errored

/-- The whole locale loop of one `scrape_one` call, fed by the per-locale
oracle (one outcome per locale, in order). -/
def scrape_run (cfg : ScrapeConfig) (outcomes : List FetchOutcome) : RunState :=
  ((ordered_languages cfg).zip outcomes).foldl
    (fun st p => scrape_step cfg st p.1 p.2) initRunState

/-!
## The terminal queue updates of `scrape_one`
-/

/-- A row of the `url_queue` table (app/models.py:25-58). -/
structure QueueRow where
  status : String
  retry_count : Nat
  max_retries : Nat
  last_error : Option String
  scraped_at : Option Nat
deriving DecidableEq, Repr

/-- The graceful terminal update (app/scraper_service.py:583-593):
`status = 'completed' if scraped_count > 0 else 'failed'`, plus
`scraped_at = NOW()`; `retry_count` and `last_error` are not touched. -/
def final_status_update (row : QueueRow) (scraped_count : Nat) (now : Nat) :
    QueueRow :=
  { row with
    status := if 0 < scraped_count then "completed" else "failed",
    scraped_at := some now }

/-- The fatal-exception update (app/scraper_service.py:632-647):
`status = CASE WHEN retry_count + 1 >= max_retries THEN 'failed' ELSE
'pending' END`, `retry_count = retry_count + 1`,
`last_error = str(e)[:500]`. -/
def fatal_error_update (row : QueueRow) (err : String) : QueueRow :=
  { row with
    status := if row.max_retries ≤ row.retry_count + 1 then "failed"
              else "pending",
    retry_count := row.retry_count + 1,
    last_error := some ⟨err.data.take 500⟩ }

/-!
## `BookingExtractor._clean_address` (app/extractor.py:210-236)

`_clean_address` cuts the address at the first occurrence of any of 21
`noise_triggers`, searched with `re.IGNORECASE`, then strips whitespace,
right-strips the punctuation set `'.,;– \n\t'`, caps at 200 characters
and strips again; an empty result becomes `None`.  Each trigger is a
sequence of case-insensitive literals, small character classes, `\s+`,
`\s*`, `\d`, `\d+`, an optional trailing letter, or a word boundary; in
every trigger a quantified class is followed by a token it cannot match,
so maximal-run matching is exact, and `re.search` returns the leftmost
match start, which is where the string is cut.
-/

/-- One token of a `_clean_address` noise-trigger pattern. -/
inductive RTok where
  | lit (c : Char)
  | cls (cs : List Char)
  | ws1
  | ws0
  | dig
  | dig1
  | optc (c : Char)
  | wordB
deriving Repr

/-- ASCII model of the regex word-character class `\w`. -/
def isWordChar (c : Char) : Bool := c.isAlphanum || c = '_'

/-- Match a trigger pattern at the head of the input; literals and
classes compare through `toLower` (model of `re.IGNORECASE`). -/
def rtoksMatch : List RTok → List Char → Bool
  | [], _ => true
  | RTok.lit c :: ps, x :: xs =>
      if x.toLower = c then rtoksMatch ps xs else false
  | RTok.cls cs :: ps, x :: xs =>
      if x.toLower ∈ cs then rtoksMatch ps xs else false
  | RTok.ws1 :: ps, x :: xs =>
      if x.isWhitespace then rtoksMatch ps (xs.dropWhile Char.isWhitespace)
      else false
  | RTok.ws0 :: ps, s => rtoksMatch ps (s.dropWhile Char.isWhitespace)
  | RTok.dig :: ps, x :: xs =>
      if x.isDigit then rtoksMatch ps xs else false
  | RTok.dig1 :: ps, x :: xs =>
      if x.isDigit then rtoksMatch ps (xs.dropWhile Char.isDigit) else false
  | RTok.optc c :: ps, x :: xs =>
      if x.toLower = c then rtoksMatch ps xs || rtoksMatch ps (x :: xs)
      else rtoksMatch ps (x :: xs)
  | RTok.optc _ :: ps, [] => rtoksMatch ps []
  | RTok.wordB :: ps, s =>
      (match s.head? with
       | Option.none => true
       | some x => ! isWordChar x) && rtoksMatch ps s
  | _ :: _, [] => false

/-- Case-insensitive literal text as pattern tokens (text given
lowercase). -/
def litToks (s : String) : List RTok := s.data.map RTok.lit

/-- The 21 `noise_triggers` of `_clean_address`, in source order, with
`re.IGNORECASE` folded into lowercase literals (`[Vv]alorad` is `valorad`
case-insensitively, etc.). -/
def noiseTriggers : List (List RTok) :=
  [ litToks "ubicaci" ++ [RTok.cls ['o', 'ó'], RTok.lit 'n'],
    litToks "excellent" ++ [RTok.ws1] ++ litToks "location",
    litToks "great" ++ [RTok.ws1] ++ litToks "location",
    litToks "location" ++ [RTok.wordB],
    litToks "valorad",
    litToks "puntuada",
    litToks "basada" ++ [RTok.ws1] ++ litToks "en" ++ [RTok.ws0, RTok.dig],
    litToks "comentarios",
    litToks "ver" ++ [RTok.ws1] ++ litToks "mapa",
    litToks "show" ++ [RTok.ws1] ++ litToks "on" ++ [RTok.ws1] ++ litToks "map",
    [RTok.dig1, RTok.ws0, RTok.lit '/', RTok.ws0] ++ litToks "10",
    litToks "puntuaci" ++ [RTok.cls ['o', 'ó'], RTok.lit 'n'],
    litToks "rated" ++ [RTok.ws1] ++ litToks "by",
    litToks "customer" ++ [RTok.optc 's'],
    litToks "destacado",
    litToks "de" ++ [RTok.ws1] ++ litToks "las" ++ [RTok.ws1, RTok.lit 'm',
      RTok.cls ['a', 'á'], RTok.lit 's'],
    litToks "valorada" ++ [RTok.optc 's'],
    litToks "valued" ++ [RTok.ws1] ++ litToks "by",
    litToks "despu" ++ [RTok.cls ['e', 'é'], RTok.lit 's', RTok.ws1] ++
      litToks "de" ++ [RTok.ws1] ++ litToks "reservar",
    litToks "encontrar" ++ [RTok.cls ['a', 'á'], RTok.lit 's'],
    [RTok.lit 'n', RTok.cls ['u', 'ú']] ++ litToks "mero" ++ [RTok.ws1] ++
      litToks "de" ++ [RTok.ws1] ++ litToks "tel" ++
      [RTok.cls ['e', 'é']] ++ litToks "fono" ]

/-- Does any noise trigger match at this position? -/
def anyNoiseAt (s : List Char) : Bool :=
  noiseTriggers.any (fun p => rtoksMatch p s)

/-- `re.search(pattern, v, re.IGNORECASE).start()`: index of the leftmost
position at which some trigger matches. -/
def findNoiseFrom : Nat → List Char → Option Nat
  | i, s =>
    if anyNoiseAt s then some i
    else
      match s with
      | [] => Option.none
      | _ :: xs => findNoiseFrom (i + 1) xs

/-- Python `str.rstrip(chars)`. -/
def rstripSet (cs : List Char) (l : List Char) : List Char :=
  (l.reverse.dropWhile (fun c => cs.contains c)).reverse

/-- `BookingExtractor._clean_address` (app/extractor.py:210-236). -/
def clean_address (v : String) : Option String :=
  if v = "" then Option.none
  else
    let v1 := match findNoiseFrom 0 v.data with
      | some i =>
          rstripSet ['.', ',', ';', '–', ' ', '\n', '\t']
            (stripChars (v.data.take i))
      | Option.none => v.data
    let v2 := if 200 < v1.length then v1.take 200 else v1
    let v3 := stripChars v2
    if v3 = [] then Option.none else some ⟨v3⟩

/-!
## Concrete sample inputs used by the closed counterexamples and witnesses
-/

/-- A page extraction with a name and one image URL (all other fields as a
typical sparse page). -/
def sampleExtraction : Extraction :=
  { name := PyVal.str "Hotel X", address := PyVal.none,
    description := PyVal.none, rating := PyVal.none,
    rating_category := PyVal.none, total_reviews := PyVal.none,
    review_scores := PyVal.other 0, services := PyVal.strList [],
    facilities := PyVal.other 0, house_rules := PyVal.none,
    important_info := PyVal.none, rooms := PyVal.other 0,
    images_urls := ["https://cf.bstatic.com/xdata/images/hotel/max1280x900/1.jpg"] }

/-- The cloudscraper configuration (`USE_SELENIUM=False`) with the default
`en,es` pair of the scenario tests. -/
def sampleConfig : ScrapeConfig :=
  { default_language := "en", enabled_languages := ["en", "es"],
    download_images_enabled := true, use_selenium := false,
    base_url := "https://www.booking.com/hotel/es/x.html" }

/-- The Selenium configuration for the session-death scenario. -/
def sampleConfigSelenium : ScrapeConfig :=
  { sampleConfig with use_selenium := true }

/-- A freshly claimed queue row with no retries used yet. -/
def sampleQueueRow : QueueRow :=
  { status := "processing", retry_count := 0, max_retries := 3,
    last_error := Option.none, scraped_at := Option.none }

/-- An existing `hotels` row for key `(1, "en")` with `url = "old-url"`. -/
def sampleHotelRow : HotelRow :=
  { url_id := 1, language := "en", url := "old-url",
    name := PyVal.str "Old Name", address := PyVal.none,
    description := PyVal.none, rating := PyVal.none,
    total_reviews := PyVal.none, rating_category := PyVal.none,
    review_scores := PyVal.other 0, services := PyVal.other 0,
    facilities := PyVal.other 0, house_rules := PyVal.none,
    important_info := PyVal.none, rooms_info := PyVal.other 0,
    images_urls := PyVal.other 0, images_local := PyVal.none,
    images_count := 7, scraped_at := 10, updated_at := 10 }

/-- New field values for the same key with a different fetched URL. -/
def sampleSaveParams : SaveParams :=
  { url_id := 1, language := "en", url := "new-url",
    name := PyVal.str "New Name", address := PyVal.str "Addr",
    description := PyVal.str "Desc", rating := PyVal.other 1,
    total_reviews := PyVal.nat 5, rating_category := PyVal.str "Excellent",
    review_scores := PyVal.other 2, services := PyVal.other 3,
    facilities := PyVal.other 4, house_rules := PyVal.str "Rules",
    important_info := PyVal.str "Info", rooms_info := PyVal.other 5,
    images_urls := PyVal.other 6 }

/-- A text of raw length 30 whose whitespace-stripped length is 19: it
carries three negative English signals (`"auch "`, `"piscina"`,
`"camera "`) and no positive one. -/
def samplePaddedText : String := "auch piscina camera           "

/-- A text of stripped length ≥ 30 with exactly two negative English
signals and no positive one. -/
def sampleTwoNegText : String := "zzz auch zzzz piscina zzzz zzzz"

/-!
# Theorems

## Generic helper lemmas
-/

theorem takeWhile_append_all {p : Char → Bool} (l t : List Char)
    (h : ∀ c ∈ l, p c = true) :
    (l ++ t).takeWhile p = l ++ t.takeWhile p := by
  induction l with
  | nil => simp
  | cons a l ih =>
    have ha : p a = true := h a (by simp)
    simp only [List.cons_append, List.takeWhile_cons_of_pos ha]
    rw [ih (fun c hc => h c (by simp [hc]))]

theorem dropWhile_append_all {p : Char → Bool} (l t : List Char)
    (h : ∀ c ∈ l, p c = true) :
    (l ++ t).dropWhile p = t.dropWhile p := by
  induction l with
  | nil => simp
  | cons a l ih =>
    have ha : p a = true := h a (by simp)
    simp only [List.cons_append, List.dropWhile_cons_of_pos ha]
    exact ih (fun c hc => h c (by simp [hc]))

theorem head?_dropWhile_not {p : Char → Bool} (l : List Char) (c : Char)
    (h : (l.dropWhile p).head? = some c) : p c = false := by
  induction l with
  | nil => simp at h
  | cons a l ih =>
    by_cases ha : p a = true
    · rw [List.dropWhile_cons_of_pos ha] at h
      exact ih h
    · rw [List.dropWhile_cons_of_neg ha] at h
      simp only [List.head?_cons, Option.some.injEq] at h
      subst h
      simpa using ha

theorem digit_ne_slash {c : Char} (h : c.isDigit = true) : c ≠ '/' := by
  intro hc
  subst hc
  simp at h

/-!
## Lemmas about the `re.sub` scanner
-/

theorem reSubGo_nil (m : List Char → Option (List Char)) (repl : List Char)
    (fuel : Nat) : reSubGo m repl fuel [] = [] := by
  cases fuel <;> rfl

theorem reSubGo_eq_self (m : List Char → Option (List Char)) (repl : List Char) :
    ∀ (s : List Char) (fuel : Nat),
      (∀ t, t <:+ s → m t = Option.none) → reSubGo m repl fuel s = s := by
  intro s
  induction s with
  | nil => intro fuel _; exact reSubGo_nil m repl fuel
  | cons c cs ih =>
    intro fuel h
    cases fuel with
    | zero => rfl
    | succ fuel =>
      have hc : m (c :: cs) = Option.none := h (c :: cs) List.suffix_rfl
      simp only [reSubGo, hc]
      rw [ih fuel (fun t ht => h t (ht.trans (List.suffix_cons c cs)))]

theorem reSub_eq_self (m : List Char → Option (List Char)) (repl : List Char)
    (s : List Char) (h : ∀ t, t <:+ s → m t = Option.none) :
    reSub m repl s = s :=
  reSubGo_eq_self m repl s s.length h

/-- A scanner step at a head match with no remainder yields the
replacement alone. -/
theorem reSub_head_all (m : List Char → Option (List Char)) (repl : List Char)
    (c : Char) (cs : List Char) (h : m (c :: cs) = some []) :
    reSub m repl (c :: cs) = repl := by
  simp only [reSub, List.length_cons, reSubGo, h]
  simp [reSubGo_nil]

/-!
## The three matchers: head conditions and non-matching suffixes
-/

theorem matchMaxPair_ne_slash (c : Char) (t : List Char) (h : c ≠ '/') :
    matchMaxPair (c :: t) = Option.none := by
  simp [matchMaxPair, expectChars, h]

theorem matchMaxSingle_ne_slash (c : Char) (t : List Char) (h : c ≠ '/') :
    matchMaxSingle (c :: t) = Option.none := by
  simp [matchMaxSingle, expectChars, h]

theorem matchSquare_ne_slash (c : Char) (t : List Char) (h : c ≠ '/') :
    matchSquare (c :: t) = Option.none := by
  simp [matchSquare, expectChars, h]

/-- Suffixes of a digit run followed by the closing slash never match a
matcher that fails on `[]`, on `['/']`, and on any non-slash head. -/
theorem noMatch_suffix_digits_slash (m : List Char → Option (List Char))
    (h0 : m [] = Option.none) (h1 : m ['/'] = Option.none)
    (hc : ∀ c t, c ≠ '/' → m (c :: t) = Option.none) :
    ∀ (ds : List Char), (∀ c ∈ ds, c.isDigit = true) →
      ∀ t, t <:+ ds ++ ['/'] → m t = Option.none := by
  intro ds
  induction ds with
  | nil =>
    intro _ t ht
    simp only [List.nil_append] at ht
    rcases List.suffix_cons_iff.mp ht with h | h
    · rw [h]; exact h1
    · rw [List.suffix_nil.mp h]; exact h0
  | cons d ds ih =>
    intro hds t ht
    simp only [List.cons_append] at ht
    rcases List.suffix_cons_iff.mp ht with h | h
    · rw [h]
      exact hc d _ (digit_ne_slash (hds d (by simp)))
    · exact ih (fun c hcmem => hds c (by simp [hcmem])) t h

theorem matchMaxPair_on_single (ds : List Char)
    (hds : ∀ c ∈ ds, c.isDigit = true) :
    matchMaxPair ('/' :: 'm' :: 'a' :: 'x' :: (ds ++ ['/'])) = Option.none := by
  have ht : (ds ++ ['/']).takeWhile Char.isDigit = ds := by
    rw [takeWhile_append_all ds ['/'] hds,
        List.takeWhile_cons_of_neg (by decide)]
    simp
  have hd : (ds ++ ['/']).dropWhile Char.isDigit = ['/'] := by
    rw [dropWhile_append_all ds ['/'] hds,
        List.dropWhile_cons_of_neg (by decide)]
  simp [matchMaxPair, expectChars, ht, hd]

theorem matchMaxSingle_on_single (ds : List Char) (hne : ds ≠ [])
    (hds : ∀ c ∈ ds, c.isDigit = true) :
    matchMaxSingle ('/' :: 'm' :: 'a' :: 'x' :: (ds ++ ['/'])) = some [] := by
  have ht : (ds ++ ['/']).takeWhile Char.isDigit = ds := by
    rw [takeWhile_append_all ds ['/'] hds,
        List.takeWhile_cons_of_neg (by decide)]
    simp
  have hd : (ds ++ ['/']).dropWhile Char.isDigit = ['/'] := by
    rw [dropWhile_append_all ds ['/'] hds,
        List.dropWhile_cons_of_neg (by decide)]
  simp [matchMaxSingle, expectChars, ht, hd, hne]

theorem matchMaxSingle_on_square (ds : List Char)
    (_hds : ∀ c ∈ ds, c.isDigit = true) :
    matchMaxSingle ('/' :: 's' :: 'q' :: 'u' :: 'a' :: 'r' :: 'e' :: (ds ++ ['/']))
      = Option.none := by
  simp [matchMaxSingle, expectChars]

theorem matchMaxPair_on_square (ds : List Char)
    (_hds : ∀ c ∈ ds, c.isDigit = true) :
    matchMaxPair ('/' :: 's' :: 'q' :: 'u' :: 'a' :: 'r' :: 'e' :: (ds ++ ['/']))
      = Option.none := by
  simp [matchMaxPair, expectChars]

theorem matchSquare_on_square (ds : List Char) (hne : ds ≠ [])
    (hds : ∀ c ∈ ds, c.isDigit = true) :
    matchSquare ('/' :: 's' :: 'q' :: 'u' :: 'a' :: 'r' :: 'e' :: (ds ++ ['/']))
      = some [] := by
  have ht : (ds ++ ['/']).takeWhile Char.isDigit = ds := by
    rw [takeWhile_append_all ds ['/'] hds,
        List.takeWhile_cons_of_neg (by decide)]
    simp
  have hd : (ds ++ ['/']).dropWhile Char.isDigit = ['/'] := by
    rw [dropWhile_append_all ds ['/'] hds,
        List.dropWhile_cons_of_neg (by decide)]
  simp [matchSquare, expectChars, ht, hd, hne]

theorem matchMaxPair_on_pair (d1 d2 : List Char)
    (h1ne : d1 ≠ []) (h2ne : d2 ≠ [])
    (h1 : ∀ c ∈ d1, c.isDigit = true) (h2 : ∀ c ∈ d2, c.isDigit = true) :
    matchMaxPair ('/' :: 'm' :: 'a' :: 'x' :: (d1 ++ 'x' :: (d2 ++ ['/'])))
      = some [] := by
  have ht1 : (d1 ++ 'x' :: (d2 ++ ['/'])).takeWhile Char.isDigit = d1 := by
    rw [takeWhile_append_all d1 _ h1,
        List.takeWhile_cons_of_neg (by decide)]
    simp
  have hd1 : (d1 ++ 'x' :: (d2 ++ ['/'])).dropWhile Char.isDigit
      = 'x' :: (d2 ++ ['/']) := by
    rw [dropWhile_append_all d1 _ h1,
        List.dropWhile_cons_of_neg (by decide)]
  have ht2 : (d2 ++ ['/']).takeWhile Char.isDigit = d2 := by
    rw [takeWhile_append_all d2 ['/'] h2,
        List.takeWhile_cons_of_neg (by decide)]
    simp
  have hd2 : (d2 ++ ['/']).dropWhile Char.isDigit = ['/'] := by
    rw [dropWhile_append_all d2 ['/'] h2,
        List.dropWhile_cons_of_neg (by decide)]
  simp [matchMaxPair, expectChars, ht1, hd1, ht2, hd2, h1ne, h2ne]

theorem matchMaxPair_none_on_single_suffix (ds : List Char)
    (hds : ∀ c ∈ ds, c.isDigit = true) :
    ∀ t, t <:+ ('/' :: 'm' :: 'a' :: 'x' :: (ds ++ ['/'])) →
      matchMaxPair t = Option.none := by
  intro t ht
  rcases List.suffix_cons_iff.mp ht with rfl | ht
  · exact matchMaxPair_on_single ds hds
  rcases List.suffix_cons_iff.mp ht with rfl | ht
  · exact matchMaxPair_ne_slash _ _ (by decide)
  rcases List.suffix_cons_iff.mp ht with rfl | ht
  · exact matchMaxPair_ne_slash _ _ (by decide)
  rcases List.suffix_cons_iff.mp ht with rfl | ht
  · exact matchMaxPair_ne_slash _ _ (by decide)
  exact noMatch_suffix_digits_slash matchMaxPair (by decide) (by decide)
    matchMaxPair_ne_slash ds hds t ht

theorem matchers_none_on_square_suffix (ds : List Char)
    (hds : ∀ c ∈ ds, c.isDigit = true)
    (m : List Char → Option (List Char))
    (h0 : m [] = Option.none) (h1 : m ['/'] = Option.none)
    (hc : ∀ c t, c ≠ '/' → m (c :: t) = Option.none)
    (hw : m ('/' :: 's' :: 'q' :: 'u' :: 'a' :: 'r' :: 'e' :: (ds ++ ['/']))
        = Option.none) :
    ∀ t, t <:+ ('/' :: 's' :: 'q' :: 'u' :: 'a' :: 'r' :: 'e' :: (ds ++ ['/'])) →
      m t = Option.none := by
  intro t ht
  rcases List.suffix_cons_iff.mp ht with rfl | ht
  · exact hw
  rcases List.suffix_cons_iff.mp ht with rfl | ht
  · exact hc _ _ (by decide)
  rcases List.suffix_cons_iff.mp ht with rfl | ht
  · exact hc _ _ (by decide)
  rcases List.suffix_cons_iff.mp ht with rfl | ht
  · exact hc _ _ (by decide)
  rcases List.suffix_cons_iff.mp ht with rfl | ht
  · exact hc _ _ (by decide)
  rcases List.suffix_cons_iff.mp ht with rfl | ht
  · exact hc _ _ (by decide)
  rcases List.suffix_cons_iff.mp ht with rfl | ht
  · exact hc _ _ (by decide)
  exact noMatch_suffix_digits_slash m h0 h1 hc ds hds t ht

/-- Normalization of a lone `/max<digits>/` segment. -/
theorem normalize_max_single (ds : List Char) (hne : ds ≠ [])
    (hds : ∀ c ∈ ds, c.isDigit = true) :
    normalize_img_url ⟨'/' :: 'm' :: 'a' :: 'x' :: (ds ++ ['/'])⟩
      = "/max1280x900/" := by
  have h1 : reSub matchMaxPair maxRepl ('/' :: 'm' :: 'a' :: 'x' :: (ds ++ ['/']))
      = '/' :: 'm' :: 'a' :: 'x' :: (ds ++ ['/']) :=
    reSub_eq_self _ _ _ (matchMaxPair_none_on_single_suffix ds hds)
  have h2 : reSub matchMaxSingle maxRepl ('/' :: 'm' :: 'a' :: 'x' :: (ds ++ ['/']))
      = maxRepl :=
    reSub_head_all _ _ _ _ (matchMaxSingle_on_single ds hne hds)
  have h3 : reSub matchSquare maxRepl maxRepl = maxRepl := by decide
  show (⟨reSub matchSquare maxRepl (reSub matchMaxSingle maxRepl
      (reSub matchMaxPair maxRepl ('/' :: 'm' :: 'a' :: 'x' :: (ds ++ ['/']))))⟩
      : String) = "/max1280x900/"
  rw [h1, h2, h3]
  rfl

/-- Normalization of a lone `/square<digits>/` segment. -/
theorem normalize_square_single (ds : List Char) (hne : ds ≠ [])
    (hds : ∀ c ∈ ds, c.isDigit = true) :
    normalize_img_url
        ⟨'/' :: 's' :: 'q' :: 'u' :: 'a' :: 'r' :: 'e' :: (ds ++ ['/'])⟩
      = "/max1280x900/" := by
  have h1 : reSub matchMaxPair maxRepl
      ('/' :: 's' :: 'q' :: 'u' :: 'a' :: 'r' :: 'e' :: (ds ++ ['/']))
      = '/' :: 's' :: 'q' :: 'u' :: 'a' :: 'r' :: 'e' :: (ds ++ ['/']) :=
    reSub_eq_self _ _ _ (matchers_none_on_square_suffix ds hds matchMaxPair
      (by decide) (by decide) matchMaxPair_ne_slash (matchMaxPair_on_square ds hds))
  have h2 : reSub matchMaxSingle maxRepl
      ('/' :: 's' :: 'q' :: 'u' :: 'a' :: 'r' :: 'e' :: (ds ++ ['/']))
      = '/' :: 's' :: 'q' :: 'u' :: 'a' :: 'r' :: 'e' :: (ds ++ ['/']) :=
    reSub_eq_self _ _ _ (matchers_none_on_square_suffix ds hds matchMaxSingle
      (by decide) (by decide) matchMaxSingle_ne_slash (matchMaxSingle_on_square ds hds))
  have h3 : reSub matchSquare maxRepl
      ('/' :: 's' :: 'q' :: 'u' :: 'a' :: 'r' :: 'e' :: (ds ++ ['/']))
      = maxRepl :=
    reSub_head_all _ _ _ _ (matchSquare_on_square ds hne hds)
  show (⟨reSub matchSquare maxRepl (reSub matchMaxSingle maxRepl
      (reSub matchMaxPair maxRepl
        ('/' :: 's' :: 'q' :: 'u' :: 'a' :: 'r' :: 'e' :: (ds ++ ['/']))))⟩
      : String) = "/max1280x900/"
  rw [h1, h2, h3]
  rfl

/-- Normalization of a lone `/max<digits>x<digits>/` segment. -/
theorem normalize_max_pair (d1 d2 : List Char)
    (h1ne : d1 ≠ []) (h2ne : d2 ≠ [])
    (h1 : ∀ c ∈ d1, c.isDigit = true) (h2 : ∀ c ∈ d2, c.isDigit = true) :
    normalize_img_url ⟨'/' :: 'm' :: 'a' :: 'x' :: (d1 ++ 'x' :: (d2 ++ ['/']))⟩
      = "/max1280x900/" := by
  have ha : reSub matchMaxPair maxRepl
      ('/' :: 'm' :: 'a' :: 'x' :: (d1 ++ 'x' :: (d2 ++ ['/']))) = maxRepl :=
    reSub_head_all _ _ _ _ (matchMaxPair_on_pair d1 d2 h1ne h2ne h1 h2)
  have hb : reSub matchMaxSingle maxRepl maxRepl = maxRepl := by decide
  have hc : reSub matchSquare maxRepl maxRepl = maxRepl := by decide
  show (⟨reSub matchSquare maxRepl (reSub matchMaxSingle maxRepl
      (reSub matchMaxPair maxRepl
        ('/' :: 'm' :: 'a' :: 'x' :: (d1 ++ 'x' :: (d2 ++ ['/'])))))⟩
      : String) = "/max1280x900/"
  rw [ha, hb, hc]
  rfl

/-!
## C9 — idempotence of the image-URL normalization
-/

/-- C9 counterexample: normalization is not idempotent.  On
`"/max5/max6/"` the first pass rewrites only `/max5/` (its trailing slash
is consumed by the scan, so `/max6/` is not matched), and a second
application rewrites the leftover segment. -/
theorem normalize_img_url_not_idempotent :
    normalize_img_url (normalize_img_url "/max5/max6/")
        ≠ normalize_img_url "/max5/max6/" ∧
    normalize_img_url "/max5/max6/" = "/max1280x900/max6/" ∧
    normalize_img_url (normalize_img_url "/max5/max6/")
        = "/max1280x900/max1280x900/" := by
  decide

/-- C9 (amended): the image-URL normalization is idempotent on a URL
consisting of a single resolution segment — a lone `/max<digits>/`
normalizes to `/max1280x900/`, and the produced `/max1280x900/` segment is
a fixed point of the substitution; idempotence fails only when two
resolution segments share a delimiting slash. -/
theorem normalize_img_url_idempotent_single (ds : List Char) (hne : ds ≠ [])
    (hds : ∀ c ∈ ds, c.isDigit = true) :
    normalize_img_url
        (normalize_img_url ⟨'/' :: 'm' :: 'a' :: 'x' :: (ds ++ ['/'])⟩)
      = normalize_img_url ⟨'/' :: 'm' :: 'a' :: 'x' :: (ds ++ ['/'])⟩ ∧
    normalize_img_url "/max1280x900/" = "/max1280x900/" := by
  have h := normalize_max_single ds hne hds
  constructor
  · rw [h]; decide
  · decide

/-- Witness for C9's amended theorem at the digit string `"5"`. -/
theorem normalize_img_url_idempotent_single_witness :
    (['5'] : List Char) ≠ [] ∧
    normalize_img_url
        (normalize_img_url ⟨'/' :: 'm' :: 'a' :: 'x' :: (['5'] ++ ['/'])⟩)
      = normalize_img_url ⟨'/' :: 'm' :: 'a' :: 'x' :: (['5'] ++ ['/'])⟩ :=
  ⟨by decide,
   (normalize_img_url_idempotent_single ['5'] (by decide) (by decide)).1⟩

/-!
## C7 — the maximum-resolution substitution and case sensitivity
-/

/-- C7 counterexample: the image-URL normalization does not match
case-insensitively — an uppercase `/MAX500/` segment is left unchanged
(the three `re.sub` calls carry no `re.IGNORECASE` flag), and the
hotel-image CDN-path check is likewise case-sensitive. -/
theorem normalize_img_url_case_cex :
    normalize_img_url "/MAX500/" = "/MAX500/" ∧
    normalize_img_url "/MAX500/" ≠ "/max1280x900/" ∧
    is_hotel_photo "HTTPS://CF.BSTATIC.COM/XDATA/IMAGES/HOTEL/A.JPG" = false := by
  decide

/-- C7 (amended): the normalization substitutes a lowercase `/maxNxN/`,
`/maxN/` or `/squareN/` path segment with `/max1280x900/`, but it and the
hotel-image CDN-path validity check match case-sensitively (uppercase
variants are left unchanged, resp. rejected); the locale-suffix strip and
the address-noise strip do match case-insensitively, as the claim says —
`clean_address` cuts an uppercase `VER MAPA` noise fragment exactly as it
cuts the mixed-case `Ver mapa`, while the fragment-free address passes
through unchanged. -/
theorem normalize_img_url_substitution (ds d1 d2 : List Char)
    (hne : ds ≠ []) (hds : ∀ c ∈ ds, c.isDigit = true)
    (h1ne : d1 ≠ []) (h1 : ∀ c ∈ d1, c.isDigit = true)
    (h2ne : d2 ≠ []) (h2 : ∀ c ∈ d2, c.isDigit = true) :
    normalize_img_url ⟨'/' :: 'm' :: 'a' :: 'x' :: (ds ++ ['/'])⟩
        = "/max1280x900/" ∧
    normalize_img_url
        ⟨'/' :: 's' :: 'q' :: 'u' :: 'a' :: 'r' :: 'e' :: (ds ++ ['/'])⟩
        = "/max1280x900/" ∧
    normalize_img_url ⟨'/' :: 'm' :: 'a' :: 'x' :: (d1 ++ 'x' :: (d2 ++ ['/']))⟩
        = "/max1280x900/" ∧
    normalize_img_url "/MAX500/" = "/MAX500/" ∧
    normalize_img_url "/SQUARE60/" = "/SQUARE60/" ∧
    is_hotel_photo "https://cf.bstatic.com/xdata/images/hotel/a.jpg" = true ∧
    is_hotel_photo "HTTPS://CF.BSTATIC.COM/XDATA/IMAGES/HOTEL/A.JPG" = false ∧
    build_language_url "https://x/h.ES.HTML" "en" = "https://x/h.html" ∧
    build_language_url "https://x/h.es.html" "en" = "https://x/h.html" ∧
    clean_address "123 Main Street Ver mapa" = some "123 Main Street" ∧
    clean_address "123 Main Street VER MAPA" = some "123 Main Street" ∧
    clean_address "123 Main Street" = some "123 Main Street" := by
  refine ⟨normalize_max_single ds hne hds,
          normalize_square_single ds hne hds,
          normalize_max_pair d1 d2 h1ne h2ne h1 h2,
          by decide, by decide, by decide, by decide, by decide, by decide,
          by decide, by decide, by decide⟩

/-- Witness for C7's amended theorem at `/max500/`, `/square60/` and
`/max500x334/`. -/
theorem normalize_img_url_substitution_witness :
    normalize_img_url ⟨'/' :: 'm' :: 'a' :: 'x' :: (['5', '0', '0'] ++ ['/'])⟩
        = "/max1280x900/" ∧
    normalize_img_url
        ⟨'/' :: 's' :: 'q' :: 'u' :: 'a' :: 'r' :: 'e' :: (['6', '0'] ++ ['/'])⟩
        = "/max1280x900/" := by
  have h := normalize_img_url_substitution ['5', '0', '0'] ['5', '0', '0']
    ['3', '3', '4'] (by decide) (by decide) (by decide) (by decide)
    (by decide) (by decide)
  exact ⟨h.1, h.2.1⟩

/-!
## C1 — the `detected_locale` field does not exist
-/

/-- C1 (code bug): the extractor's result dict never contains a
`detected_lang` / `detected_locale` key — `extract_all` emits fourteen
fixed keys and `scrape_hotel` adds four bookkeeping keys, none of them
`"detected_lang"` — so `data.get("detected_lang")` in the worker is always
`None` and the locale-authentication gate
`if detected and detected != lang:` can never fire. -/
theorem extractor_has_no_detected_locale (e : Extraction)
    (language url page_title : String) (hs hl : Nat) :
    pyGet (scrape_hotel_data e language url hs hl page_title) "detected_lang"
        = PyVal.none ∧
    (extract_all e language).lookup "detected_lang" = Option.none ∧
    pyTruthy (pyGet (scrape_hotel_data e language url hs hl page_title)
        "detected_lang") = false := by
  refine ⟨rfl, rfl, rfl⟩

/-!
## C8 — the VPN activity check
-/

/-- C8: `verify_vpn_active` returns `True` whenever the original IP is
unknown (`None`, empty, or the probe sentinel `"Unknown"`) or the current
probed IP is the sentinel `"Unknown"`; otherwise it returns `True` exactly
when the current IP differs from the original IP captured at
construction. -/
theorem verify_vpn_active_spec (orig : Option String) (current : String) :
    ((orig = Option.none ∨ orig = some "" ∨ orig = some "Unknown"
        ∨ current = "Unknown") → verify_vpn_active orig current = true) ∧
    (∀ o : String, orig = some o → o ≠ "" → o ≠ "Unknown" →
      current ≠ "Unknown" →
      (verify_vpn_active orig current = true ↔ current ≠ o)) := by
  constructor
  · rintro (rfl | rfl | rfl | rfl)
    · rfl
    · simp [verify_vpn_active]
    · simp [verify_vpn_active]
    · cases orig with
      | none => rfl
      | some o =>
        by_cases h : o = "" ∨ o = "Unknown" <;> simp [verify_vpn_active, h]
  · rintro o rfl h1 h2 h3
    have h12 : ¬ (o = "" ∨ o = "Unknown") := by
      rintro (h | h) <;> [exact h1 h; exact h2 h]
    simp [verify_vpn_active, h12, h3]

/-- Witness for C8 at a known original IP: unknown current IP is treated
as active, and a changed IP is active. -/
theorem verify_vpn_active_spec_witness :
    verify_vpn_active (some "1.2.3.4") "Unknown" = true ∧
    (verify_vpn_active (some "1.2.3.4") "5.6.7.8" = true
      ↔ ("5.6.7.8" : String) ≠ "1.2.3.4") :=
  ⟨(verify_vpn_active_spec (some "1.2.3.4") "Unknown").1 (by simp),
   (verify_vpn_active_spec (some "1.2.3.4") "5.6.7.8").2 "1.2.3.4" rfl
     (by decide) (by decide) (by decide)⟩

/-!
## C10 — empty URL list in the image downloader
-/

/-- C10: calling the image downloader with an empty URL list returns the
empty result list (downloaded count 0) and creates no hotel image
directory, for every hotel id, locale and room argument. -/
theorem download_images_empty (dirs : List String) (hotel_id : Nat)
    (language : String) (room_id : Option Nat) (fetch : String → Option Nat) :
    download_images dirs hotel_id [] language room_id fetch = ([], dirs) := by
  rfl

/-!
## C4 — the language authenticator
-/

/-- C4 counterexample: a text of raw length 30 (so not "under 30") whose
whitespace-stripped length is 19, carrying three negative English signals
and no positive one — the claim's "rejects iff neg_hits ≥ 3 and
neg_hits > pos_hits" demands rejection, but the authenticator accepts it,
because the source tests `len(text.strip()) < 30`, not `len(text) < 30`. -/
theorem validate_lang_raw_length_cex :
    samplePaddedText.length = 30 ∧
    (stripChars samplePaddedText.data).length = 19 ∧
    lang_neg_score "en" samplePaddedText = 3 ∧
    lang_pos_score "en" samplePaddedText = 0 ∧
    validate_lang "en" samplePaddedText (some "en") = true := by
  decide

/-- C4 (amended): the authenticator returns `True` for every text whose
whitespace-stripped length is under 30 (hence for every text of raw length
under 30), and for text of stripped length ≥ 30 it rejects iff the
negative-signal hit count is at least 3 and strictly exceeds the
positive-signal hit count; in particular `neg_hits = 2, pos_hits = 0` is
accepted. -/
theorem validate_lang_spec (self_language text locale : String) :
    ((stripChars text.data).length < 30 →
      validate_lang self_language text (some locale) = true) ∧
    (30 ≤ (stripChars text.data).length →
      (validate_lang self_language text (some locale) = false ↔
        3 ≤ lang_neg_score (resolve_lang (some locale) self_language) text ∧
          lang_pos_score (resolve_lang (some locale) self_language) text <
            lang_neg_score (resolve_lang (some locale) self_language) text)) := by
  constructor
  · intro h
    unfold validate_lang
    by_cases he : text = ""
    · simp [he]
    · simp [he, h]
  · intro h
    have he : ¬ text = "" := by
      intro he
      subst he
      have h0 : (stripChars ("" : String).data).length = 0 := by decide
      omega
    have h30 : ¬ ((stripChars text.data).length < 30) := by omega
    unfold validate_lang
    simp only [he, if_false, h30]
    split
    · simp_all
    · simp_all

/-- Witness for C4's amended theorem: a stripped-length-31 text with two
negative hits and no positive hit is accepted. -/
theorem validate_lang_spec_witness :
    30 ≤ (stripChars sampleTwoNegText.data).length ∧
    lang_neg_score "en" sampleTwoNegText = 2 ∧
    lang_pos_score "en" sampleTwoNegText = 0 ∧
    validate_lang "en" sampleTwoNegText (some "en") = true := by
  refine ⟨by decide, by decide, by decide, ?_⟩
  have h := (validate_lang_spec "en" sampleTwoNegText "en").2 (by decide)
  have hscore : ¬ (3 ≤ lang_neg_score (resolve_lang (some "en") "en") sampleTwoNegText ∧
      lang_pos_score (resolve_lang (some "en") "en") sampleTwoNegText <
        lang_neg_score (resolve_lang (some "en") "en") sampleTwoNegText) := by
    decide
  cases hb : validate_lang "en" sampleTwoNegText (some "en") with
  | false => exact absurd (h.mp hb) hscore
  | true => rfl

/-!
## C2 / C3 — invariants of the worker loop
-/

theorem scrape_step_count (cfg : ScrapeConfig) (st : RunState) (lang : String)
    (oc : FetchOutcome) (h : st.scraped_count = st.saved.length) :
    (scrape_step cfg st lang oc).scraped_count
      = (scrape_step cfg st lang oc).saved.length := by
  unfold scrape_step
  rcases oc with d | ⟨msg, rec⟩
  · rcases d with _ | e
    · simpa using h
    · dsimp only
      split
      · simpa using h
      · split
        · split <;> simp_all
        · split
          · split <;> simp_all [List.length_append]
          · simp_all [List.length_append]
  · dsimp only
    split
    · rcases rec with _ | d2
      · simpa using h
      rcases d2 with _ | e2
      · simpa using h
      · dsimp only
        split
        · split
          · split <;> simp_all [List.length_append]
          · simp_all [List.length_append]
        · simpa using h
    · simpa using h

theorem scrape_step_downloads (cfg : ScrapeConfig) (st : RunState)
    (lang : String) (oc : FetchOutcome) :
    ((scrape_step cfg st lang oc).downloads = st.downloads
      ∧ (scrape_step cfg st lang oc).images_downloaded = st.images_downloaded)
    ∨ (st.images_downloaded = false
      ∧ cfg.download_images_enabled = true
      ∧ (scrape_step cfg st lang oc).images_downloaded = true
      ∧ ((scrape_step cfg st lang oc).downloads = st.downloads
        ∨ ∃ ev : DownloadEvent,
            (scrape_step cfg st lang oc).downloads = st.downloads ++ [ev]
            ∧ (ev.recovery = false → ev.language = cfg.default_language))) := by
  unfold scrape_step
  rcases oc with d | ⟨msg, rec⟩
  · rcases d with _ | e
    · left; exact ⟨rfl, rfl⟩
    · dsimp only
      split
      · left; exact ⟨rfl, rfl⟩
      · split
        · split
          · left; exact ⟨rfl, rfl⟩
          · left; exact ⟨rfl, rfl⟩
        · split
          · rename_i hgate
            right
            refine ⟨by simpa using hgate.2.1, hgate.2.2, ?_, ?_⟩
            · split <;> rfl
            · split
              · right
                exact ⟨⟨cfg.default_language, e.images_urls, false⟩, rfl,
                  fun _ => rfl⟩
              · left; rfl
          · left; exact ⟨rfl, rfl⟩
  · dsimp only
    split
    · rcases rec with _ | d2
      · left; exact ⟨rfl, rfl⟩
      rcases d2 with _ | e2
      · left; exact ⟨rfl, rfl⟩
      · dsimp only
        split
        · split
          · rename_i hgate
            right
            refine ⟨by simpa using hgate.1, hgate.2, ?_, ?_⟩
            · split <;> rfl
            · split
              · right
                exact ⟨⟨lang, e2.images_urls, true⟩, rfl, by simp⟩
              · left; rfl
          · left; exact ⟨rfl, rfl⟩
        · left; exact ⟨rfl, rfl⟩
    · left; exact ⟨rfl, rfl⟩

theorem scrape_foldl_count (cfg : ScrapeConfig) :
    ∀ (ps : List (String × FetchOutcome)) (st : RunState),
      st.scraped_count = st.saved.length →
      (ps.foldl (fun st p => scrape_step cfg st p.1 p.2) st).scraped_count
        = (ps.foldl (fun st p => scrape_step cfg st p.1 p.2) st).saved.length := by
  intro ps
  induction ps with
  | nil => intro st h; exact h
  | cons p ps ih =>
    intro st h
    exact ih (scrape_step cfg st p.1 p.2) (scrape_step_count cfg st p.1 p.2 h)

/-- `scraped_count` counts exactly the upserted `(locale, url)` records. -/
theorem scrape_run_count (cfg : ScrapeConfig) (outcomes : List FetchOutcome) :
    (scrape_run cfg outcomes).scraped_count
      = (scrape_run cfg outcomes).saved.length :=
  scrape_foldl_count cfg _ initRunState rfl

theorem scrape_foldl_downloads (cfg : ScrapeConfig) :
    ∀ (ps : List (String × FetchOutcome)) (st : RunState),
      st.downloads.length ≤ 1 →
      (st.images_downloaded = false → st.downloads = []) →
      (st.downloads ≠ [] → cfg.download_images_enabled = true) →
      (∀ ev ∈ st.downloads, ev.recovery = false →
        ev.language = cfg.default_language) →
      ((ps.foldl (fun st p => scrape_step cfg st p.1 p.2) st).downloads.length ≤ 1
      ∧ ((ps.foldl (fun st p => scrape_step cfg st p.1 p.2) st).images_downloaded = false →
          (ps.foldl (fun st p => scrape_step cfg st p.1 p.2) st).downloads = [])
      ∧ ((ps.foldl (fun st p => scrape_step cfg st p.1 p.2) st).downloads ≠ [] →
          cfg.download_images_enabled = true)
      ∧ ∀ ev ∈ (ps.foldl (fun st p => scrape_step cfg st p.1 p.2) st).downloads,
          ev.recovery = false → ev.language = cfg.default_language) := by
  intro ps
  induction ps with
  | nil => intro st h1 h2 h3 h4; exact ⟨h1, h2, h3, h4⟩
  | cons p ps ih =>
    intro st h1 h2 h3 h4
    rcases scrape_step_downloads cfg st p.1 p.2 with ⟨hd, hf⟩ | ⟨hoff, hdl, hon, hcase⟩
    · exact ih _ (by rw [hd]; exact h1) (by rw [hd, hf]; exact h2)
        (by rw [hd]; exact h3) (by rw [hd]; exact h4)
    · have hempty : st.downloads = [] := h2 hoff
      rcases hcase with hd | ⟨ev, hd, hev⟩
      · exact ih _ (by rw [hd]; exact h1) (by rw [hd]; intro _; exact hempty)
          (by intro _; exact hdl) (by rw [hd]; exact h4)
      · refine ih _ ?_ ?_ ?_ ?_
        · rw [hd, hempty]; simp
        · intro hcontra
          rw [hon] at hcontra
          exact absurd hcontra (by simp)
        · intro _; exact hdl
        · rw [hd, hempty]
          intro e he
          simp at he
          subst he
          exact hev

/-- C2 counterexample: a scrape in which every locale yields no data
(e.g. 404 everywhere) stores zero locales, and the worker's terminal
update sets the row directly to `failed` — even though `retry_count = 0`
is below `max_retries = 3` — leaving `retry_count` at 0 and `last_error`
empty, where the claim demands `pending` with `retry_count = 1` and a
populated `last_error`. -/
theorem scrape_one_zero_locales_cex :
    (scrape_run sampleConfig
        [FetchOutcome.ret Option.none, FetchOutcome.ret Option.none]).saved
      = [] ∧
    sampleQueueRow.retry_count < sampleQueueRow.max_retries ∧
    (final_status_update sampleQueueRow
        (scrape_run sampleConfig
          [FetchOutcome.ret Option.none, FetchOutcome.ret Option.none]).scraped_count
        1).status = "failed" ∧
    (final_status_update sampleQueueRow
        (scrape_run sampleConfig
          [FetchOutcome.ret Option.none, FetchOutcome.ret Option.none]).scraped_count
        1).retry_count = 0 ∧
    (final_status_update sampleQueueRow
        (scrape_run sampleConfig
          [FetchOutcome.ret Option.none, FetchOutcome.ret Option.none]).scraped_count
        1).last_error = Option.none := by
  decide

/-- C2 (amended): a listing whose scrape stores zero locales is set to
`failed` directly by the graceful terminal update, which never touches
`retry_count` or `last_error`; the pending-with-incremented-retry
transition, with `last_error` populated (truncated to 500 characters),
happens only in the fatal-exception handler of `scrape_one`, and there the
row goes to `pending` only while `retry_count + 1` is still below
`max_retries`. -/
theorem scrape_one_zero_locales_failed (cfg : ScrapeConfig)
    (outcomes : List FetchOutcome) (row : QueueRow) (now : Nat) (err : String)
    (h : (scrape_run cfg outcomes).saved = []) :
    (final_status_update row (scrape_run cfg outcomes).scraped_count now).status
        = "failed" ∧
    (final_status_update row (scrape_run cfg outcomes).scraped_count
        now).retry_count = row.retry_count ∧
    (final_status_update row (scrape_run cfg outcomes).scraped_count
        now).last_error = row.last_error ∧
    (fatal_error_update row err).retry_count = row.retry_count + 1 ∧
    (fatal_error_update row err).last_error = some ⟨err.data.take 500⟩ ∧
    (fatal_error_update row err).status
      = (if row.max_retries ≤ row.retry_count + 1 then "failed"
         else "pending") := by
  have hc : (scrape_run cfg outcomes).scraped_count = 0 := by
    rw [scrape_run_count cfg outcomes, h]
    rfl
  refine ⟨?_, rfl, rfl, rfl, rfl, rfl⟩
  rw [hc]
  rfl

/-- Witness for C2's amended theorem on the all-locales-fail run. -/
theorem scrape_one_zero_locales_failed_witness :
    (final_status_update sampleQueueRow
        (scrape_run sampleConfig
          [FetchOutcome.ret Option.none, FetchOutcome.ret Option.none]).scraped_count
        1).status = "failed" :=
  (scrape_one_zero_locales_failed sampleConfig
    [FetchOutcome.ret Option.none, FetchOutcome.ret Option.none]
    sampleQueueRow 1 "boom" (by decide)).1

/-- C3 counterexample: in the session-death recovery path the worker
downloads images for the first recovered locale with no default-locale
restriction — here the Spanish attempt recovers and triggers the download
with locale `"es"` ≠ default `"en"`; moreover no extraction ever carries
`detected_locale` equal to the default locale, since the key does not
exist (`data.get("detected_lang")` is `None`), yet downloads happen. -/
theorem scrape_one_image_gate_cex :
    (scrape_run sampleConfigSelenium
        [FetchOutcome.ret Option.none,
         FetchOutcome.exn "Message: invalid session id"
           (some (some sampleExtraction))]).downloads
      = [⟨"es", ["https://cf.bstatic.com/xdata/images/hotel/max1280x900/1.jpg"],
          true⟩] ∧
    ¬ ("es" = sampleConfigSelenium.default_language) ∧
    pyGet (scrape_hotel_data sampleExtraction "en"
        "https://www.booking.com/hotel/es/x.html" 200 0 "") "detected_lang"
      = PyVal.none := by
  decide

/-- C3 (amended): within one `scrape_one` run, the image downloader is
invoked at most once (guarded by the `images_downloaded` flag) and only
with `DOWNLOAD_IMAGES` enabled; in the normal path the invocation
additionally requires the current locale to be the default locale (no
`detected_locale` condition exists — the field is never set), while the
session-death recovery path may invoke it for a non-default locale. -/
theorem scrape_one_images_once (cfg : ScrapeConfig)
    (outcomes : List FetchOutcome) :
    (scrape_run cfg outcomes).downloads.length ≤ 1 ∧
    ((scrape_run cfg outcomes).downloads ≠ [] →
      cfg.download_images_enabled = true) ∧
    ∀ ev ∈ (scrape_run cfg outcomes).downloads,
      ev.recovery = false → ev.language = cfg.default_language := by
  have h := scrape_foldl_downloads cfg ((ordered_languages cfg).zip outcomes)
    initRunState (by simp [initRunState]) (by simp [initRunState])
    (by simp [initRunState]) (by simp [initRunState])
  exact ⟨h.1, h.2.2.1, h.2.2.2⟩

/-- Witness for C3's amended theorem on the happy-path run: exactly one
download, with `DOWNLOAD_IMAGES` enabled and locale `"en"`. -/
theorem scrape_one_images_once_witness :
    (scrape_run sampleConfig
        [FetchOutcome.ret (some sampleExtraction),
         FetchOutcome.ret (some sampleExtraction)]).downloads.length ≤ 1 ∧
    sampleConfig.download_images_enabled = true ∧
    (⟨"en", ["https://cf.bstatic.com/xdata/images/hotel/max1280x900/1.jpg"],
        false⟩ : DownloadEvent).language = sampleConfig.default_language :=
  ⟨(scrape_one_images_once sampleConfig
      [FetchOutcome.ret (some sampleExtraction),
       FetchOutcome.ret (some sampleExtraction)]).1,
   (scrape_one_images_once sampleConfig
      [FetchOutcome.ret (some sampleExtraction),
       FetchOutcome.ret (some sampleExtraction)]).2.1 (by decide),
   (scrape_one_images_once sampleConfig
      [FetchOutcome.ret (some sampleExtraction),
       FetchOutcome.ret (some sampleExtraction)]).2.2
     ⟨"en", ["https://cf.bstatic.com/xdata/images/hotel/max1280x900/1.jpg"],
        false⟩ (by decide) rfl⟩

/-!
## C6 — the record upsert
-/

/-- C6 counterexample: upserting new field values (including a new
fetched URL) onto an existing `(url_id, language)` row leaves the
non-identity column `url` — and likewise `scraped_at`, `images_count` and
`images_local` — at its old value, because the `ON CONFLICT ... DO UPDATE
SET` list omits them. -/
theorem save_hotel_url_not_updated_cex :
    sampleSaveParams.url = "new-url" ∧
    (save_hotel [sampleHotelRow] sampleSaveParams 55).map
        (fun r => (r.url, r.scraped_at, r.images_count))
      = [("old-url", 10, 7)] ∧
    (save_hotel [sampleHotelRow] sampleSaveParams 55).map
        (fun r => (r.name, r.updated_at))
      = [(PyVal.str "New Name", 55)] := by
  decide

/-- C6 (amended): when the `(url_id, locale)` key already exists, the
update-on-conflict branch updates every extracted-data column (`name`
through `images_urls`) and `updated_at`, inserts no new row, but leaves
`url`, `scraped_at`, `images_count` and `images_local` unchanged. -/
theorem save_hotel_conflict_spec (tbl : List HotelRow) (p : SaveParams)
    (now : Nat) (r : HotelRow) (hr : r ∈ tbl)
    (hk : hotelKeyMatch r p = true) :
    (save_hotel tbl p now).length = tbl.length ∧
    conflict_update r p now ∈ save_hotel tbl p now ∧
    (conflict_update r p now).name = p.name ∧
    (conflict_update r p now).address = p.address ∧
    (conflict_update r p now).description = p.description ∧
    (conflict_update r p now).rating = p.rating ∧
    (conflict_update r p now).total_reviews = p.total_reviews ∧
    (conflict_update r p now).rating_category = p.rating_category ∧
    (conflict_update r p now).review_scores = p.review_scores ∧
    (conflict_update r p now).services = p.services ∧
    (conflict_update r p now).facilities = p.facilities ∧
    (conflict_update r p now).house_rules = p.house_rules ∧
    (conflict_update r p now).important_info = p.important_info ∧
    (conflict_update r p now).rooms_info = p.rooms_info ∧
    (conflict_update r p now).images_urls = p.images_urls ∧
    (conflict_update r p now).updated_at = now ∧
    (conflict_update r p now).url = r.url ∧
    (conflict_update r p now).scraped_at = r.scraped_at ∧
    (conflict_update r p now).images_count = r.images_count ∧
    (conflict_update r p now).images_local = r.images_local := by
  have hany : tbl.any (fun r => hotelKeyMatch r p) = true :=
    List.any_eq_true.mpr ⟨r, hr, hk⟩
  refine ⟨?_, ?_, rfl, rfl, rfl, rfl, rfl, rfl, rfl, rfl, rfl, rfl, rfl, rfl,
    rfl, rfl, rfl, rfl, rfl, rfl⟩
  · simp [save_hotel, hany]
  · unfold save_hotel
    rw [hany]
    simp only [if_true]
    exact List.mem_map.mpr ⟨r, hr, by simp [hk]⟩

/-- Witness for C6's amended theorem on the sample row: the table keeps
its single row and that row's `url` stays at the pre-upsert value. -/
theorem save_hotel_conflict_spec_witness :
    (save_hotel [sampleHotelRow] sampleSaveParams 55).length
        = ([sampleHotelRow] : List HotelRow).length ∧
    (conflict_update sampleHotelRow sampleSaveParams 55).url
        = sampleHotelRow.url := by
  have h := save_hotel_conflict_spec [sampleHotelRow] sampleSaveParams 55
    sampleHotelRow (by decide) (by decide)
  exact ⟨h.1, h.2.2.2.2.2.2.2.2.2.2.2.2.2.2.2.2.1⟩

/-!
## C5 — support lemmas on `stripChars` and the locale-suffix strip
-/

theorem stripChars_head_not_ws (l : List Char) (c : Char)
    (h : (stripChars l).head? = some c) : c.isWhitespace = false := by
  unfold stripChars at h
  set A := l.dropWhile Char.isWhitespace with hA
  set B := A.reverse.dropWhile Char.isWhitespace with hB
  have hsuf : B <:+ A.reverse := by rw [hB]; exact List.dropWhile_suffix _
  have hpre : B.reverse <+: A := by
    apply List.reverse_suffix.mp
    rw [List.reverse_reverse]
    exact hsuf
  rcases hpre with ⟨s, hs⟩
  have hAhead : A.head? = some c := by
    rw [← hs, List.head?_append, h]
    rfl
  exact head?_dropWhile_not l c (by rw [← hA]; exact hAhead)

theorem stripChars_getLast_not_ws (l : List Char) (c : Char)
    (h : (stripChars l).getLast? = some c) : c.isWhitespace = false := by
  unfold stripChars at h
  rw [List.getLast?_reverse] at h
  exact head?_dropWhile_not _ c h

theorem stripChars_eq_self (l : List Char)
    (hh : ∀ c, l.head? = some c → c.isWhitespace = false)
    (hl : ∀ c, l.getLast? = some c → c.isWhitespace = false) :
    stripChars l = l := by
  unfold stripChars
  have h1 : l.dropWhile Char.isWhitespace = l := by
    cases l with
    | nil => rfl
    | cons x xs =>
      have := hh x rfl
      rw [List.dropWhile_cons_of_neg (by simp [this])]
  rw [h1]
  have h2 : l.reverse.dropWhile Char.isWhitespace = l.reverse := by
    cases hr : l.reverse with
    | nil => rfl
    | cons x xs =>
      have hx : l.getLast? = some x := by
        rw [← List.head?_reverse, hr]; rfl
      have := hl x hx
      rw [List.dropWhile_cons_of_neg (by simp [this])]
  rw [h2, List.reverse_reverse]

theorem matchLangHtmlEnd_suffix (l p : List Char)
    (h : matchLangHtmlEnd l = some p) :
    ∃ t, t <:+ l.reverse ∧ p = t.reverse := by
  unfold matchLangHtmlEnd at h
  rcases hrev : l.reverse with _ | ⟨l1, _ | ⟨m1, _ | ⟨t1, _ | ⟨hh1, _ | ⟨d1, rest⟩⟩⟩⟩⟩ <;>
    rw [hrev] at h <;> simp only [matchLangHtmlEndRev] at h
  · simp at h
  · simp at h
  · simp at h
  · simp at h
  · simp at h
  have hrest : rest <:+ l1 :: m1 :: t1 :: hh1 :: d1 :: rest :=
    ((((List.suffix_cons d1 rest).trans
      (List.suffix_cons hh1 _)).trans (List.suffix_cons t1 _)).trans
      (List.suffix_cons m1 _)).trans (List.suffix_cons l1 _)
  split at h
  · split at h
    · -- no-dash branch
      simp only [Option.some.injEq] at h
      refine ⟨(rest.dropWhile isReAlpha).tail, ?_, h.symm⟩
      exact (((List.tail_suffix _).trans (List.dropWhile_suffix _)).trans hrest)
    · split at h
      · -- dash branch
        rcases hr2 : (rest.dropWhile isReAlpha).tail with _ | ⟨a2, _ | ⟨b2, rest2⟩⟩ <;>
          rw [hr2] at h
        · simp at h
        · simp at h
        dsimp only at h
        by_cases hcond : (isReAlpha a2 && isReAlpha b2
            && decide (rest2.head? = some '.')) = true
        · rw [if_pos hcond] at h
          simp only [Option.some.injEq] at h
          refine ⟨rest2.tail, ?_, h.symm⟩
          have h1s : rest2.tail <:+ (rest.dropWhile isReAlpha).tail := by
            rw [hr2]
            exact ((List.tail_suffix _).trans (List.suffix_cons b2 _)).trans
              (List.suffix_cons a2 _)
          exact (h1s.trans ((List.tail_suffix _).trans
            (List.dropWhile_suffix _))).trans hrest
        · rw [if_neg hcond] at h
          simp at h
      · simp at h
  · simp at h

theorem strip_lang_suffix_head (l : List Char) (c : Char)
    (h : (strip_lang_suffix l).head? = some c) :
    l.head? = some c ∨ c = '.' := by
  unfold strip_lang_suffix at h
  cases hm : matchLangHtmlEnd l with
  | none => rw [hm] at h; left; exact h
  | some p =>
    rw [hm] at h
    rcases matchLangHtmlEnd_suffix l p hm with ⟨t, ht, rfl⟩
    cases hp : t.reverse with
    | nil =>
      right
      rw [hp] at h
      simp only [List.nil_append, dotHtml, List.head?_cons,
        Option.some.injEq] at h
      exact h.symm
    | cons x xs =>
      left
      rw [hp] at h
      simp only [List.cons_append, List.head?_cons, Option.some.injEq] at h
      subst h
      have hpre : t.reverse <+: l := by
        apply List.reverse_suffix.mp
        rw [List.reverse_reverse]
        exact ht
      rcases hpre with ⟨s, hs⟩
      rw [← hs, hp]
      rfl

theorem endsWithHtml_decomp (l : List Char) (h : endsWithHtml l = true) :
    ∃ B, l = B ++ dotHtml := by
  unfold endsWithHtml at h
  have hpre : ['l', 'm', 't', 'h', '.'] <+: l.reverse :=
    List.isPrefixOf_iff_prefix.mp h
  have hd : (['l', 'm', 't', 'h', '.'] : List Char) = dotHtml.reverse := by decide
  rw [hd] at hpre
  have hsuf : dotHtml <:+ l := List.reverse_prefix.mp hpre
  rcases hsuf with ⟨B, hB⟩
  exact ⟨B, hB.symm⟩

theorem endsWithHtml_append (B : List Char) :
    endsWithHtml (B ++ dotHtml) = true := by
  unfold endsWithHtml
  rw [List.reverse_append]
  have : dotHtml.reverse = ['l', 'm', 't', 'h', '.'] := by decide
  rw [this]
  exact List.isPrefixOf_iff_prefix.mpr ⟨B.reverse, rfl⟩

/-- Stripping the locale suffix from `B ++ ".ab.html"` (two ASCII letters
after the dot) yields `B ++ ".html"` for every `B`: the unique
end-anchored match is the appended suffix. -/
theorem strip_append_ext (B : List Char) (a b : Char)
    (ha : a.isAlpha = true) (hb : b.isAlpha = true) :
    strip_lang_suffix (B ++ ('.' :: a :: b :: dotHtml)) = B ++ dotHtml := by
  unfold strip_lang_suffix matchLangHtmlEnd
  have hrev : (B ++ ('.' :: a :: b :: dotHtml)).reverse
      = 'l' :: 'm' :: 't' :: 'h' :: '.' :: b :: a :: '.' :: B.reverse := by
    simp [dotHtml, List.reverse_append]
  rw [hrev]
  have htk : (b :: a :: '.' :: B.reverse).takeWhile isReAlpha = [b, a] := by
    rw [List.takeWhile_cons_of_pos (by simpa [isReAlpha] using hb),
        List.takeWhile_cons_of_pos (by simpa [isReAlpha] using ha),
        List.takeWhile_cons_of_neg (by simp [isReAlpha])]
  have hdr : (b :: a :: '.' :: B.reverse).dropWhile isReAlpha
      = '.' :: B.reverse := by
    rw [List.dropWhile_cons_of_pos (by simpa [isReAlpha] using hb),
        List.dropWhile_cons_of_pos (by simpa [isReAlpha] using ha),
        List.dropWhile_cons_of_neg (by simp [isReAlpha])]
  simp +decide [matchLangHtmlEndRev, lcEq, htk, hdr]

theorem clean_url_decomp (base : List Char) :
    ∃ C, clean_url_chars base = C ++ dotHtml := by
  unfold clean_url_chars ensure_html
  cases h : endsWithHtml (strip_lang_suffix (stripChars base)) with
  | true =>
    simp only [if_pos]
    exact endsWithHtml_decomp _ h
  | false =>
    simp only [Bool.false_eq_true, if_neg, not_false_iff]
    exact ⟨strip_lang_suffix (stripChars base), rfl⟩

theorem clean_url_head_not_ws (base : List Char) (c : Char)
    (h : (clean_url_chars base).head? = some c) : c.isWhitespace = false := by
  have hstrip : ∀ c', (strip_lang_suffix (stripChars base)).head? = some c' →
      c'.isWhitespace = false := by
    intro c' hc'
    rcases strip_lang_suffix_head _ c' hc' with h' | rfl
    · exact stripChars_head_not_ws base c' h'
    · decide
  unfold clean_url_chars ensure_html at h
  cases hew : endsWithHtml (strip_lang_suffix (stripChars base)) with
  | true =>
    rw [hew, if_pos rfl] at h
    exact hstrip c h
  | false =>
    rw [hew] at h
    simp only [Bool.false_eq_true, if_neg, not_false_iff,
      List.head?_append] at h
    cases hh : (strip_lang_suffix (stripChars base)).head? with
    | some c0 =>
      rw [hh] at h
      simp only [Option.or_some, Option.some.injEq] at h
      subst h
      exact hstrip c0 hh
    | none =>
      rw [hh] at h
      simp only [Option.none_or] at h
      have : c = '.' := by
        have h2 := h
        simp [dotHtml] at h2
        exact h2.symm
      subst this
      decide

theorem build_chars_reapply (base : List Char) (X Y : String) (a b : Char)
    (ha : a.isAlpha = true) (hb : b.isAlpha = true)
    (hX : LANGUAGE_EXT.lookup X = some ⟨['.', a, b]⟩) :
    build_language_url_chars (build_language_url_chars base X) Y
      = build_language_url_chars base Y := by
  obtain ⟨C, hC⟩ := clean_url_decomp base
  have hne : (⟨['.', a, b]⟩ : String) ≠ "" := by
    intro hc
    simpa using congrArg String.data hc
  have hv : build_language_url_chars base X
      = C ++ ('.' :: a :: b :: dotHtml) := by
    unfold build_language_url_chars
    rw [hX]
    simp only [Option.getD_some, if_neg hne]
    rw [hC]
    have hlen : (C ++ dotHtml).length - 5 = C.length := by
      simp [dotHtml]
    rw [hlen, List.take_left' rfl]
    simp [List.append_assoc]
  have hstrip : stripChars (C ++ ('.' :: a :: b :: dotHtml))
      = C ++ ('.' :: a :: b :: dotHtml) := by
    apply stripChars_eq_self
    · intro c hc
      rw [List.head?_append] at hc
      cases hCh : C.head? with
      | none =>
        rw [hCh] at hc
        simp only [Option.none_or, List.head?_cons, Option.some.injEq] at hc
        subst hc
        decide
      | some c0 =>
        rw [hCh] at hc
        simp only [Option.or_some, Option.some.injEq] at hc
        subst hc
        have hcl : (clean_url_chars base).head? = some c0 := by
          rw [hC, List.head?_append, hCh]
          rfl
        exact clean_url_head_not_ws base c0 hcl
    · intro c hc
      rw [List.getLast?_append] at hc
      have hdl : ('.' :: a :: b :: dotHtml).getLast? = some 'l' := by
        simp [dotHtml]
      rw [hdl] at hc
      simp only [Option.or, Option.some.injEq] at hc
      subst hc
      decide
  have hclean2 : clean_url_chars (C ++ ('.' :: a :: b :: dotHtml))
      = C ++ dotHtml := by
    unfold clean_url_chars
    rw [hstrip, strip_append_ext C a b ha hb]
    unfold ensure_html
    rw [if_pos (endsWithHtml_append C)]
  rw [hv]
  unfold build_language_url_chars
  rw [hclean2, hC]

/-!
## C5 — re-application of the locale-suffix construction
-/

/-- C5 counterexample: for a stored URL carrying two stacked locale
suffixes, re-application with the default locale (empty suffix) is not
idempotent — the strip removes only the outermost suffix layer, so the
first application still ends in `.es.html` and the second strips
further. -/
theorem build_language_url_reapply_cex :
    build_language_url (build_language_url "https://x/hotel.es.de.html" "en") "en"
        ≠ build_language_url "https://x/hotel.es.de.html" "en" ∧
    build_language_url "https://x/hotel.es.de.html" "en"
        = "https://x/hotel.es.html" ∧
    build_language_url (build_language_url "https://x/hotel.es.de.html" "en") "en"
        = "https://x/hotel.html" := by
  decide

/-- C5 (amended): for every URL string `u` and every locale `X` whose
configured suffix is non-empty (every non-default locale in
`LANGUAGE_EXT` — each suffix is a dot followed by two ASCII letters),
`build_language_url (build_language_url u X) Y = build_language_url u Y`
for every locale `Y`.  With `X` the default locale (empty suffix) the
identity can fail, but only on URLs that still carry a second locale
suffix after one strip (see the counterexample). -/
theorem build_language_url_reapply (u X Y : String) (a b : Char)
    (ha : a.isAlpha = true) (hb : b.isAlpha = true)
    (hX : LANGUAGE_EXT.lookup X = some ⟨['.', a, b]⟩) :
    build_language_url (build_language_url u X) Y = build_language_url u Y := by
  unfold build_language_url
  exact congrArg String.mk (build_chars_reapply u.data X Y a b ha hb hX)

/-- Witness for C5's amended theorem: re-applying after the Spanish
suffix gives the same result as a single application. -/
theorem build_language_url_reapply_witness :
    LANGUAGE_EXT.lookup "es" = some ⟨['.', 'e', 's']⟩ ∧
    build_language_url (build_language_url "https://x/hotel.es.de.html" "es") "en"
      = build_language_url "https://x/hotel.es.de.html" "en" :=
  ⟨by decide,
   build_language_url_reapply "https://x/hotel.es.de.html" "es" "en" 'e' 's'
     (by decide) (by decide) (by decide)⟩
